import Mathlib

/-!
Verification of the aligned-tiling core of `nunif/cli/convert_data.py`.

The Python source is shallowly embedded: image tensors are modelled by the
rectangular pixel region they occupy (a decoded image is anchored at the
origin; cropping tracks absolute coordinates), Python floats by `ℚ`,
Python `int()` by truncation toward zero, and every raised exception by an
`Except` error value.  Theorems about ratios assume images with positive
dimensions, matching the decoder collaborator which never yields an empty
image; Python would raise `ZeroDivisionError` on a zero dimension, a path
none of the verified properties exercises.
-/

namespace Nunif

/-- A rectangular pixel region.  A freshly decoded image is anchored at the
origin; cropping produces a sub-region whose `top`/`left` are absolute
coordinates in the original plane, with extent `h × w`. -/
structure Img where
  top : Nat
  left : Nat
  h : Nat
  w : Nat
deriving DecidableEq

/-- Runtime failures of the Python source: the `ValueError` raised on an
anisotropic scale ratio ("Unpredictable scale"), the `ValueError` raised by
`range` on a zero step, `AssertionError` from a failed `assert`,
`AttributeError` from an attribute access on an object lacking it, and the
`RuntimeError` raised in `main` when a target key is missing from the input
collection (carrying the offending key). -/
inductive PyError where
  | scaleMismatch
  | stepZero
  | assertionError
  | attributeError
  | missingPair (key : String)
deriving DecidableEq

/-- Modelled from the spec: `NF.crop` / `NF.crop_ref`
(`nunif.transforms.functional`, not under src/) cut the rectangular
sub-region at offset `(i, j)` with extent `(ch, cw)` out of an image;
`crop` copies and `crop_ref` returns a view, geometrically the same region. -/
def crop (x : Img) (i j ch cw : Nat) : Img :=
  ⟨x.top + i, x.left + j, ch, cw⟩

/-- Python `int()` applied to a float: truncation toward zero, modelled on `ℚ`. -/
def pyTrunc (q : ℚ) : ℤ :=
  if 0 ≤ q then ⌊q⌋ else -⌊-q⌋

/-- Python `range(0, stop, step)` for a positive `step`: the naturals
`0, step, 2*step, …` below `stop`, of which there are `⌈stop/step⌉`. -/
def pyRange (stop step : Nat) : List Nat :=
  List.range' 0 ((stop + step - 1) / step) step

/-- `crop_max` (src lines 38-45): top-left crop to at most `max_size` per
dimension, returning the image unchanged when it already fits. -/
def crop_max (x : Img) (max_size : Nat) : Img :=
  let h := x.h
  let w := x.w
  let lh := min h max_size
  let lw := min w max_size
  if lh ≠ h ∨ lw ≠ w then crop x 0 0 lh lw else x

/-- `_pair_crop_max` (src lines 48-66).  `x` is the low-res side (asserted
`xh <= yh`), `scale_h = xh / yh` and `scale_w = xw / yw` are the low/high
ratios (Python float division, modelled exactly on `ℚ`); the `0.00001`
tolerance of the source is modelled as `1/100000`.  The low-res crop budget
is `int(max_size * scale_h)`; when a crop happens, the high-res crop extent
is `int(lcrop / scale)` per axis and the final `assert` re-derives the
low-res extent from it.  All `int()` arguments here are nonnegative, so
truncation coincides with `Nat.floor`. -/
def _pair_crop_max (x y : Img) (max_size : Nat) : Except PyError (Img × Img) :=
  let xh := x.h
  let xw := x.w
  let yh := y.h
  let yw := y.w
  let scale_h : ℚ := (xh : ℚ) / (yh : ℚ)
  let scale_w : ℚ := (xw : ℚ) / (yw : ℚ)
  if |scale_w - scale_h| > 1 / 100000 then
    .error .scaleMismatch
  else if ¬ xh ≤ yh then
    .error .assertionError
  else
    let lr_max_size := ⌊(max_size : ℚ) * scale_h⌋₊
    let lxh := min xh lr_max_size
    let lxw := min xw lr_max_size
    if lxh ≠ xh ∨ lxw ≠ xw then
      let x' := crop x 0 0 lxh lxw
      let lyh := ⌊(lxh : ℚ) / scale_h⌋₊
      let lyw := ⌊(lxw : ℚ) / scale_w⌋₊
      let y' := crop y 0 0 lyh lyw
      if lxh = ⌊(lyh : ℚ) * scale_h⌋₊ ∧ lxw = ⌊(lyw : ℚ) * scale_w⌋₊ then
        .ok (x', y')
      else
        .error .assertionError
    else
      .ok (x, y)

/-- `pair_crop_max` (src lines 69-74): the lower side by height is passed
first to `_pair_crop_max` (ties treat `x` as low-res) and the results are
swapped back. -/
def pair_crop_max (x y : Img) (max_size : Nat) : Except PyError (Img × Img) :=
  if x.h ≤ y.h then
    _pair_crop_max x y max_size
  else
    (_pair_crop_max y x max_size).map fun p => (p.2, p.1)

/-- `split_image` (src lines 77-90).  When a dimension exceeds `max_size`
the image is tiled by a `min(h,max_size) × min(w,max_size)` window with
per-axis stride `int(crop * step_rate)`, row-major.  Python `range` raises
`ValueError` on a zero step and yields an empty range on a negative step
(the outer range is constructed first, and the inner one only when the
outer loop runs, which it always does since its stop is positive). -/
def split_image (x : Img) (max_size : Nat) (step_rate : ℚ) :
    Except PyError (List Img) :=
  let h := x.h
  let w := x.w
  if max_size < h ∨ max_size < w then
    let crop_h := min h max_size
    let crop_w := min w max_size
    let step_h := pyTrunc ((crop_h : ℚ) * step_rate)
    let step_w := pyTrunc ((crop_w : ℚ) * step_rate)
    if step_h = 0 then .error .stepZero
    else if step_h < 0 then .ok []
    else if step_w = 0 then .error .stepZero
    else if step_w < 0 then .ok []
    else
      .ok ((pyRange (h - crop_h + 1) step_h.toNat).flatMap fun i =>
        (pyRange (w - crop_w + 1) step_w.toNat).map fun j =>
          crop x i j crop_h crop_w)
  else
    .ok [x]

/-- The per-value consistency check asserted inside `_pair_split_image`
(src lines 114-118): `v == int(int(v / scale) * scale)`. -/
def align_ok (scale : ℚ) (v : Nat) : Bool :=
  v == ⌊((⌊(v : ℚ) / scale⌋₊ : ℕ) : ℚ) * scale⌋₊

/-- `_pair_split_image` (src lines 93-125): same ratio validation and
low-res budget `int(max_size * scale_h)` as `_pair_crop_max`; when the
low-res side needs tiling it is tiled as `split_image` would with that
budget, the `assert` checks `align_ok` for the offsets and the window at
every position (raising `AssertionError` at the first failure, before any
list escapes), and each high-res tile is cut at the scaled-up offsets with
the scaled-up window. -/
def _pair_split_image (x y : Img) (max_size : Nat) (split_step : ℚ) :
    Except PyError (List Img × List Img) :=
  let xh := x.h
  let xw := x.w
  let yh := y.h
  let yw := y.w
  let scale_h : ℚ := (xh : ℚ) / (yh : ℚ)
  let scale_w : ℚ := (xw : ℚ) / (yw : ℚ)
  if |scale_w - scale_h| > 1 / 100000 then
    .error .scaleMismatch
  else if ¬ xh ≤ yh then
    .error .assertionError
  else
    let lr_max_size := ⌊(max_size : ℚ) * scale_h⌋₊
    let lxh := min xh lr_max_size
    let lxw := min xw lr_max_size
    if xh ≠ lxh ∨ xw ≠ lxw then
      let crop_h := min xh lr_max_size
      let crop_w := min xw lr_max_size
      let step_h := pyTrunc ((crop_h : ℚ) * split_step)
      let step_w := pyTrunc ((crop_w : ℚ) * split_step)
      if step_h = 0 then .error .stepZero
      else if step_h < 0 then .ok ([], [])
      else if step_w = 0 then .error .stepZero
      else if step_w < 0 then .ok ([], [])
      else
        let is := pyRange (xh - crop_h + 1) step_h.toNat
        let js := pyRange (xw - crop_w + 1) step_w.toNat
        if is.all (fun i => js.all fun j =>
            align_ok scale_h i && align_ok scale_w j &&
            align_ok scale_h crop_h && align_ok scale_w crop_w) then
          .ok (is.flatMap (fun i => js.map fun j => crop x i j crop_h crop_w),
               is.flatMap (fun (i : ℕ) => js.map fun (j : ℕ) =>
                 crop y ⌊(i : ℚ) / scale_h⌋₊ ⌊(j : ℚ) / scale_w⌋₊
                   ⌊(crop_h : ℚ) / scale_h⌋₊ ⌊(crop_w : ℚ) / scale_w⌋₊))
        else
          .error .assertionError
    else
      .ok ([x], [y])

/-- `pair_split_image` (src lines 128-133): the lower side by height is
passed first to `_pair_split_image` and the two tile lists are swapped
back. -/
def pair_split_image (x y : Img) (max_size : Nat) (split_step : ℚ) :
    Except PyError (List Img × List Img) :=
  if x.h ≤ y.h then
    _pair_split_image x y max_size split_step
  else
    (_pair_split_image y x max_size split_step).map fun p => (p.2, p.1)

/-- One per-key record of a source collection: the source path and the
remaining delimited columns (`{"src": …, "options": …}` in the source). -/
structure SrcEntry where
  src : String
  options : List String
deriving DecidableEq

/-- `load_files_from_csv` (src lines 17-26), over the already-parsed rows of
the delimited file (file I/O and `csv.reader` are external collaborators;
`csv.reader` yields each row as a Python list of strings).  The loop body
evaluates `list(row.values)`, but a Python list has no `values` attribute,
so the first row — whatever its contents — raises `AttributeError`
(`cols.shift()` on the next line would fail the same way); only a file with
no rows at all completes, with the empty mapping. -/
def load_files_from_csv (rows : List (List String)) :
    Except PyError (List (String × SrcEntry)) :=
  match rows with
  | [] => .ok []
  | _ :: _ => .error .attributeError

/-- Modelled from the spec: `filename2key` (`nunif.utils`, not under src/)
derives a normalized SampleKey from a filename by dropping the directory
part and the file extension. -/
def filename2key (s : String) : String :=
  let base := (s.splitOn "/").getLastD s
  let parts := base.splitOn "."
  if parts.length ≤ 1 then base else String.intercalate "." parts.dropLast

/-- Per-image metadata accompanying a decoded image: its filename and
whether the decoder flagged an alpha channel (`"alpha" in meta`). -/
structure ImgMeta where
  filename : String
  alpha : Bool
deriving DecidableEq

/-- The recognized configuration surface of `main` (src lines 252-265). -/
structure Args where
  max_size : Nat
  split_image : Bool
  split_step : ℚ
  pad_x : Nat
  pad_y : Nat
  zero_pad_x : Bool
  zero_pad_y : Bool
  grayscale_x : Bool
  grayscale_y : Bool
deriving DecidableEq

/-- Module-level constant `INPUT_DIR` (src line 137). -/
def INPUT_DIR : String := "x"

/-- Module-level constant `TARGET_DIR` (src line 138). -/
def TARGET_DIR : String := "y"

/-- Module-level constant `USE_SNAPPY_IMAGE` (src line 136). -/
def USE_SNAPPY_IMAGE : Bool := true

/-- One write submitted to the asynchronous writer pool: the output
subdirectory, the generated file name, and the tile to persist. -/
structure WriteOp where
  dir : String
  name : String
  im : Img
deriving DecidableEq

/-- Modelled from the spec: `NF.pad` (not under src/) pads an image by `p`
pixels on each of the four sides (reflect or constant per `mode`); only the
resulting geometry is modelled, as a fresh plane of the padded extent. -/
def NF_pad (x : Img) (p : Nat) (_mode : String) : Img :=
  ⟨0, 0, x.h + 2 * p, x.w + 2 * p⟩

/-- Modelled from the spec: `NF.to_grayscale` (not under src/) performs a
luma-weighted channel reduction, leaving the geometry unchanged. -/
def NF_to_grayscale (x : Img) : Img := x

/-- Zero-padded three-digit rendering of a sequence number (`f"{no:03d}"`,
for the nonnegative numbers actually passed). -/
def pad3 (n : Nat) : String :=
  if n < 10 then "00" ++ toString n
  else if n < 100 then "0" ++ toString n
  else toString n

/-- `make_output_name` (src lines 148-154); the sequence number `-1` means
"no sequence suffix", and `USE_SNAPPY_IMAGE` selects the `sz` extension. -/
def make_output_name (filename : String) (no : Int) : String :=
  let basename := filename2key filename
  let ext := if USE_SNAPPY_IMAGE then "sz" else "png"
  if 0 ≤ no then basename ++ "." ++ pad3 no.toNat ++ "." ++ ext
  else basename ++ "." ++ ext

/-- The diagnostic written to stdout when a transparent image is skipped
(src lines 182 and 190). -/
def skip_message (filename : String) : String :=
  "skip transparent png " ++ filename

/-- The writes submitted for the tile pairs of one split pair (src lines
209-215): per sequence number, the low-res tile to the input directory and
the high-res tile to the target directory. -/
def pair_write_ops (xfn yfn : String) (xs ys : List Img) : List WriteOp :=
  (xs.zip ys).enum.flatMap fun p =>
    [⟨INPUT_DIR, make_output_name xfn (p.1 : Int), p.2.1⟩,
     ⟨TARGET_DIR, make_output_name yfn (p.1 : Int), p.2.2⟩]

/-- The writes submitted for the tiles of one split target-only image
(src lines 238-242). -/
def split_write_ops (yfn : String) (ys : List Img) : List WriteOp :=
  ys.enum.map fun p => ⟨TARGET_DIR, make_output_name yfn (p.1 : Int), p.2⟩

/-- The per-pair processing loop of `convert_data` (src lines 179-249), over
the already-decoded streams (`ImageLoader` is the external decoder; when no
input collection exists the x stream is `(None, None)` per pair).  The
result collects the writes submitted to the pool and the skip diagnostics,
in stream order; a raised exception aborts the run.  Directory setup and
the writer pool itself are I/O collaborators outside the model. -/
def convert_loop (args : Args) :
    List (Option (Img × ImgMeta) × (Img × ImgMeta)) →
    Except PyError (List WriteOp × List String)
  | [] => .ok ([], [])
  | (xo, (y_im, y_meta)) :: rest =>
    if y_meta.alpha then
      (convert_loop args rest).map fun r =>
        (r.1, skip_message y_meta.filename :: r.2)
    else
      match xo with
      | some (x_im, x_meta) =>
        if filename2key x_meta.filename ≠ filename2key y_meta.filename then
          .error .assertionError
        else if x_meta.alpha then
          (convert_loop args rest).map fun r =>
            (r.1, skip_message x_meta.filename :: r.2)
        else
          let x1 := if 0 < args.pad_x then
              NF_pad x_im args.pad_x (if args.zero_pad_x then "constant" else "reflect")
            else x_im
          let y1 := if 0 < args.pad_y then
              NF_pad y_im args.pad_y (if args.zero_pad_y then "constant" else "reflect")
            else y_im
          let x2 := if args.grayscale_x then NF_to_grayscale x1 else x1
          let y2 := if args.grayscale_y then NF_to_grayscale y1 else y1
          if 0 < args.max_size then
            if args.split_image then
              match pair_split_image x2 y2 args.max_size args.split_step with
              | .error e => .error e
              | .ok (xs, ys) =>
                (convert_loop args rest).map fun r =>
                  (pair_write_ops x_meta.filename y_meta.filename xs ys ++ r.1, r.2)
            else
              match pair_crop_max x2 y2 args.max_size with
              | .error e => .error e
              | .ok (x3, y3) =>
                (convert_loop args rest).map fun r =>
                  (⟨INPUT_DIR, make_output_name x_meta.filename (-1), x3⟩ ::
                   ⟨TARGET_DIR, make_output_name y_meta.filename (-1), y3⟩ :: r.1, r.2)
          else
            (convert_loop args rest).map fun r =>
              (⟨INPUT_DIR, make_output_name x_meta.filename (-1), x2⟩ ::
               ⟨TARGET_DIR, make_output_name y_meta.filename (-1), y2⟩ :: r.1, r.2)
      | none =>
        let y1 := if 0 < args.pad_y then
            NF_pad y_im args.pad_y (if args.zero_pad_y then "constant" else "reflect")
          else y_im
        let y2 := if args.grayscale_y then NF_to_grayscale y1 else y1
        if 0 < args.max_size then
          if args.split_image then
            match split_image y2 args.max_size args.split_step with
            | .error e => .error e
            | .ok ys =>
              (convert_loop args rest).map fun r =>
                (split_write_ops y_meta.filename ys ++ r.1, r.2)
          else
            (convert_loop args rest).map fun r =>
              (⟨TARGET_DIR, make_output_name y_meta.filename (-1),
                crop_max y2 args.max_size⟩ :: r.1, r.2)
        else
          (convert_loop args rest).map fun r =>
            (⟨TARGET_DIR, make_output_name y_meta.filename (-1), y2⟩ :: r.1, r.2)

/-- The validation loop of `main` (src lines 288-295): every target key must
exist on the input side; the first target key (in iteration order) missing
from the input collection raises `RuntimeError` naming it, before any image
is decoded or tiled. -/
def validate_pairs (x_data : List (String × SrcEntry)) :
    List (String × SrcEntry) →
    Except PyError (List (String × SrcEntry × SrcEntry))
  | [] => .ok []
  | (k, v) :: rest =>
    match x_data.lookup k with
    | some xv => (validate_pairs x_data rest).map fun d => (k, xv, v) :: d
    | none => .error (.missingPair k)

/-- The paired-collection run of `main` followed by `convert_data`
(src lines 282-301 and 157-249): validate that every target key exists on
the input side, then process the decoded streams in sorted-key order.  The
decoder is the external collaborator, modelled as a pure function from
source path to decoded image and metadata.  A validation failure aborts
before `convert_loop` runs, so no tile is computed and no write is
submitted. -/
def main_model (decode : String → Img × ImgMeta)
    (y_data x_data : List (String × SrcEntry)) (args : Args) :
    Except PyError (List WriteOp × List String) :=
  (validate_pairs x_data y_data).bind fun data =>
    convert_loop args
      ((data.mergeSort fun a b => decide (a.1 ≤ b.1)).map fun d =>
        (some (decode d.2.1.src), decode d.2.2.src))

/-! ## Shared helper lemmas -/

/-- Length of a row-major grid built by `flatMap` over rows and `map` over
columns. -/
theorem grid_length {α : Type} (is js : List Nat) (f : Nat → Nat → α) :
    (is.flatMap fun i => js.map (f i)).length = is.length * js.length := by
  induction is with
  | nil => simp
  | cons a l ih => simp [ih]; ring

/-- Optional indexing into a row-major grid: entry `k` lives in row
`k / js.length`, column `k % js.length`. -/
theorem grid_getElem? {α : Type} (is js : List Nat) (f : Nat → Nat → α) (k : Nat) :
    (is.flatMap fun i => js.map (f i))[k]? =
      is[k / js.length]?.bind fun a => (js[k % js.length]?).map (f a) := by
  by_cases hn : js.length = 0
  · have hjs : js = [] := List.eq_nil_of_length_eq_zero hn
    subst hjs
    have hempty : (is.flatMap fun i => List.map (f i) ([] : List Nat)) = [] := by
      induction is with
      | nil => rfl
      | cons a l ih =>
        rw [List.flatMap_cons, ih]
        rfl
    rw [hempty]
    cases hko : is[k / ([] : List Nat).length]? <;> simp [hko]
  · have hpos : 0 < js.length := Nat.pos_of_ne_zero hn
    induction is generalizing k with
    | nil => simp
    | cons a l ih =>
      rw [List.flatMap_cons]
      by_cases hk : k < js.length
      · rw [List.getElem?_append_left (by simpa using hk)]
        rw [Nat.div_eq_of_lt hk, Nat.mod_eq_of_lt hk]
        simp
      · push_neg at hk
        rw [List.getElem?_append_right (by simpa using hk), List.length_map]
        rw [ih (k - js.length)]
        rw [Nat.div_eq_sub_div hpos hk, Nat.mod_eq_sub_mod hk]
        simp

/-- Zipping two row-major grids over the same index sets pairs them
positionally. -/
theorem grid_zip {α β : Type} (is js : List Nat) (f : Nat → Nat → α)
    (g : Nat → Nat → β) :
    (is.flatMap fun i => js.map (f i)).zip (is.flatMap fun i => js.map (g i))
      = is.flatMap fun i => js.map fun j => (f i j, g i j) := by
  induction is with
  | nil => simp
  | cons a l ih =>
    simp only [List.flatMap_cons]
    rw [List.zip_append (by simp), ih, List.zip_map']

/-- A value passing the `align_ok` round-trip check is an exact multiple of
the scale: `int(v / scale) * scale` recovers `v` with no remainder. -/
theorem align_exact {scale : ℚ} (hs : 0 < scale) {v : ℕ}
    (h : align_ok scale v = true) :
    ((⌊(v : ℚ) / scale⌋₊ : ℕ) : ℚ) * scale = (v : ℚ) := by
  have hv : v = ⌊((⌊(v : ℚ) / scale⌋₊ : ℕ) : ℚ) * scale⌋₊ := by
    simpa [align_ok] using h
  have h1 : ((⌊(v : ℚ) / scale⌋₊ : ℕ) : ℚ) ≤ (v : ℚ) / scale :=
    Nat.floor_le (by positivity)
  have h2 : ((⌊(v : ℚ) / scale⌋₊ : ℕ) : ℚ) * scale ≤ (v : ℚ) := by
    calc ((⌊(v : ℚ) / scale⌋₊ : ℕ) : ℚ) * scale
        ≤ ((v : ℚ) / scale) * scale := mul_le_mul_of_nonneg_right h1 hs.le
      _ = (v : ℚ) := div_mul_cancel₀ _ hs.ne'
  have h3 : (v : ℚ) ≤ ((⌊(v : ℚ) / scale⌋₊ : ℕ) : ℚ) * scale := by
    conv_lhs => rw [hv]
    exact_mod_cast Nat.floor_le (by positivity)
  linarith

/-! ## C1 -/

/-- C1, counterexample: for the spec's Scenario B (input 256×256, target
1024×1024, `maxSize = 128`, split disabled) `pair_crop_max` returns an
input tile of 32×32 and a target tile of 128×128 — not the claimed
128×128 and 512×512 — because the source computes the low-res budget as
`int(max_size * scale)` with `scale = 256/1024`, not as
`min(lowRes.h, maxSize)`. -/
theorem C1_counterexample :
    pair_crop_max ⟨0, 0, 256, 256⟩ ⟨0, 0, 1024, 1024⟩ 128
        = .ok (⟨0, 0, 32, 32⟩, ⟨0, 0, 128, 128⟩) ∧
    pair_crop_max ⟨0, 0, 256, 256⟩ ⟨0, 0, 1024, 1024⟩ 128
        ≠ .ok (⟨0, 0, 128, 128⟩, ⟨0, 0, 512, 512⟩) := by
  constructor
  · norm_num [pair_crop_max, _pair_crop_max, crop]
  · norm_num [pair_crop_max, _pair_crop_max, crop]

/-- C1 (amended): for every valid pair (positive dimensions, low-res side
first, accepted scale ratio) on which `pair_crop_max` succeeds, the low-res
crop size per axis is `min(lowRes dim, int(maxSize × scale_h))` with
`scale_h = lowRes.h / highRes.h`, the high-res crop size is
`int(lowCropSize / scale)` per axis, and both crops keep their image's
anchor (origin for freshly decoded images). -/
theorem C1_pair_crop_max_sizes (x y : Img) (m : Nat)
    (hxh : 0 < x.h) (hxw : 0 < x.w) (hyh : 0 < y.h) (hyw : 0 < y.w)
    (hle : x.h ≤ y.h) (x' y' : Img)
    (hok : pair_crop_max x y m = .ok (x', y')) :
    x'.top = x.top ∧ x'.left = x.left ∧ y'.top = y.top ∧ y'.left = y.left ∧
    x'.h = min x.h ⌊(m : ℚ) * ((x.h : ℚ) / (y.h : ℚ))⌋₊ ∧
    x'.w = min x.w ⌊(m : ℚ) * ((x.h : ℚ) / (y.h : ℚ))⌋₊ ∧
    y'.h = ⌊(x'.h : ℚ) / ((x.h : ℚ) / (y.h : ℚ))⌋₊ ∧
    y'.w = ⌊(x'.w : ℚ) / ((x.w : ℚ) / (y.w : ℚ))⌋₊ := by
  have hxh0 : ((x.h : ℚ)) ≠ 0 := Nat.cast_ne_zero.mpr hxh.ne'
  have hxw0 : ((x.w : ℚ)) ≠ 0 := Nat.cast_ne_zero.mpr hxw.ne'
  have hyh0 : ((y.h : ℚ)) ≠ 0 := Nat.cast_ne_zero.mpr hyh.ne'
  have hyw0 : ((y.w : ℚ)) ≠ 0 := Nat.cast_ne_zero.mpr hyw.ne'
  rw [pair_crop_max, if_pos hle] at hok
  simp only [_pair_crop_max] at hok
  rw [if_neg (not_not_intro hle)] at hok
  split at hok
  · simp at hok
  · split at hok
    · split at hok
      · rw [Except.ok.injEq, Prod.mk.injEq] at hok
        obtain ⟨hx', hy'⟩ := hok
        subst hx'
        subst hy'
        simp [crop]
      · simp at hok
    · rename_i hcrop
      push_neg at hcrop
      rw [Except.ok.injEq, Prod.mk.injEq] at hok
      obtain ⟨hx', hy'⟩ := hok
      subst hx'
      subst hy'
      refine ⟨rfl, rfl, rfl, rfl, hcrop.1.symm, hcrop.2.symm, ?_, ?_⟩
      · have hdd : (x.h : ℚ) / ((x.h : ℚ) / (y.h : ℚ)) = (y.h : ℚ) := by
          field_simp
        rw [hdd, Nat.floor_natCast]
      · have hdd : (x.w : ℚ) / ((x.w : ℚ) / (y.w : ℚ)) = (y.w : ℚ) := by
          field_simp
        rw [hdd, Nat.floor_natCast]

/-- C1 witness: the amended theorem instantiated at Scenario B. -/
theorem C1_witness :
    pair_crop_max (Img.mk 0 0 256 256) (Img.mk 0 0 1024 1024) 128
        = .ok (Img.mk 0 0 32 32, Img.mk 0 0 128 128) ∧
    (32 = min 256 ⌊(128 : ℚ) * ((256 : ℚ) / (1024 : ℚ))⌋₊ ∧
     128 = ⌊(32 : ℚ) / ((256 : ℚ) / (1024 : ℚ))⌋₊) := by
  have hok : pair_crop_max (Img.mk 0 0 256 256) (Img.mk 0 0 1024 1024) 128
      = .ok (Img.mk 0 0 32 32, Img.mk 0 0 128 128) := by
    norm_num [pair_crop_max, _pair_crop_max, crop]
  have h := C1_pair_crop_max_sizes (Img.mk 0 0 256 256) (Img.mk 0 0 1024 1024)
    128 (by norm_num) (by norm_num) (by norm_num) (by norm_num) (by norm_num)
    (Img.mk 0 0 32 32) (Img.mk 0 0 128 128) hok
  exact ⟨hok, h.2.2.2.2.1, h.2.2.2.2.2.2.1⟩

/-! ## C3 -/

/-- C3, counterexample: the source checks the **low/high** ratios
`x/y` against the tolerance, not the spec's `r = y/x`.  For `x = 1×1`,
`y = 1000×1001` the spec's ratios are `r_h = 1000`, `r_w = 1001`, so
`|r_w - r_h| = 1 > 1e-5` and the claim demands rejection — yet
`|1/1001 - 1/1000| = 1/1001000 ≤ 1e-5`, so both operations accept the pair
and return it unchanged. -/
theorem C3_counterexample :
    |(1001 : ℚ) / (1 : ℚ) - (1000 : ℚ) / (1 : ℚ)| > 1 / 100000 ∧
    pair_crop_max ⟨0, 0, 1, 1⟩ ⟨0, 0, 1000, 1001⟩ 10000
        = .ok (⟨0, 0, 1, 1⟩, ⟨0, 0, 1000, 1001⟩) ∧
    pair_split_image ⟨0, 0, 1, 1⟩ ⟨0, 0, 1000, 1001⟩ 10000 (1 / 2)
        = .ok ([⟨0, 0, 1, 1⟩], [⟨0, 0, 1000, 1001⟩]) := by
    refine ⟨by norm_num [lt_abs], ?_, ?_⟩
    · norm_num [pair_crop_max, _pair_crop_max, abs_le]
    · norm_num [pair_split_image, _pair_split_image, abs_le]

/-- C3 (amended): with the low-res side first (`x.h ≤ y.h`), both
`pair_crop_max` and `pair_split_image` fail with the scale-mismatch signal
exactly when `|x.w/y.w - x.h/y.h| > 1e-5` — the tolerance is applied to the
low/high ratios, the reciprocals of the spec's `r_h`, `r_w`; pairs within
that tolerance are never rejected on this ground (any later failure is a
different signal). -/
theorem C3_scale_check (x y : Img) (m : Nat) (s : ℚ) (hle : x.h ≤ y.h) :
    ((|(x.w : ℚ) / (y.w : ℚ) - (x.h : ℚ) / (y.h : ℚ)| > 1 / 100000 →
      pair_crop_max x y m = .error .scaleMismatch ∧
      pair_split_image x y m s = .error .scaleMismatch) ∧
     (|(x.w : ℚ) / (y.w : ℚ) - (x.h : ℚ) / (y.h : ℚ)| ≤ 1 / 100000 →
      pair_crop_max x y m ≠ .error .scaleMismatch ∧
      pair_split_image x y m s ≠ .error .scaleMismatch)) := by
  constructor
  · intro hgt
    refine ⟨?_, ?_⟩
    · rw [pair_crop_max, if_pos hle]
      simp only [_pair_crop_max]
      rw [if_pos hgt]
    · rw [pair_split_image, if_pos hle]
      simp only [_pair_split_image]
      rw [if_pos hgt]
  · intro htol
    have hns : ¬(|(x.w : ℚ) / (y.w : ℚ) - (x.h : ℚ) / (y.h : ℚ)| > 1 / 100000) :=
      not_lt.mpr htol
    refine ⟨?_, ?_⟩
    · rw [pair_crop_max, if_pos hle]
      simp only [_pair_crop_max]
      rw [if_neg hns, if_neg (not_not_intro hle)]
      split_ifs <;> simp
    · rw [pair_split_image, if_pos hle]
      simp only [_pair_split_image]
      rw [if_neg hns, if_neg (not_not_intro hle)]
      split_ifs <;> simp

/-- C3 witness: the amended theorem instantiated at a 1×2 / 2×5 pair, whose
low/high ratios differ by `1/10 > 1e-5`, so the left implication fires. -/
theorem C3_witness :
    (|(2 : ℚ) / (5 : ℚ) - (1 : ℚ) / (2 : ℚ)| > 1 / 100000 →
      pair_crop_max ⟨0, 0, 1, 2⟩ ⟨0, 0, 2, 5⟩ 7 = .error .scaleMismatch ∧
      pair_split_image ⟨0, 0, 1, 2⟩ ⟨0, 0, 2, 5⟩ 7 (1 / 2) = .error .scaleMismatch) ∧
    (|(2 : ℚ) / (5 : ℚ) - (1 : ℚ) / (2 : ℚ)| ≤ 1 / 100000 →
      pair_crop_max ⟨0, 0, 1, 2⟩ ⟨0, 0, 2, 5⟩ 7 ≠ .error .scaleMismatch ∧
      pair_split_image ⟨0, 0, 1, 2⟩ ⟨0, 0, 2, 5⟩ 7 (1 / 2) ≠ .error .scaleMismatch) :=
  C3_scale_check ⟨0, 0, 1, 2⟩ ⟨0, 0, 2, 5⟩ 7 (1 / 2) (by norm_num)

/-! ## C4 -/

/-- The `assert`-style round trip for an exact integer ratio: scaling a
natural up by `r` (via division by the low/high ratio `1/r`) is exact. -/
theorem floor_div_one_div_nat (n r : ℕ) (hr : 0 < r) :
    (⌊(n : ℚ) / (1 / (r : ℚ))⌋₊ : ℕ) = n * r := by
  have hr0 : ((r : ℚ)) ≠ 0 := Nat.cast_ne_zero.mpr hr.ne'
  rw [div_div_eq_mul_div, div_one]
  rw [show ((n : ℚ)) * ((r : ℚ)) = ((n * r : ℕ) : ℚ) by push_cast; ring]
  exact Nat.floor_natCast _

/-- Scaling a multiple of `r` back down by the low/high ratio `1/r` recovers
the original natural exactly. -/
theorem floor_mul_one_div_nat (n r : ℕ) (hr : 0 < r) :
    (⌊((n * r : ℕ) : ℚ) * (1 / (r : ℚ))⌋₊ : ℕ) = n := by
  have hr0 : ((r : ℚ)) ≠ 0 := Nat.cast_ne_zero.mpr hr.ne'
  rw [show (((n * r : ℕ) : ℚ)) * (1 / (r : ℚ)) = ((n : ℕ) : ℚ) by push_cast; field_simp]
  exact Nat.floor_natCast _

/-- C4: for every valid pair with exact integer scale ratio `r ≥ 1`
(`y.h = r * x.h`, `y.w = r * x.w`, positive low-res dimensions),
`pair_crop_max` succeeds, the resulting high-res crop extent is exactly
`r` times the low-res crop extent per axis (so it equals
`round(lowResCrop × r)`), and integer division by `r` reproduces the
low-res crop extent exactly; the asserted round trip never fails here. -/
theorem C4_pair_crop_max_integer_ratio (x y : Img) (m r : Nat) (hr : 1 ≤ r)
    (hxh : 0 < x.h) (hxw : 0 < x.w)
    (hyh : y.h = r * x.h) (hyw : y.w = r * x.w) :
    ∃ x' y', pair_crop_max x y m = .ok (x', y') ∧
      y'.h = x'.h * r ∧ y'.w = x'.w * r ∧
      y'.h / r = x'.h ∧ y'.w / r = x'.w := by
  have hrpos : 0 < r := hr
  have hr0 : ((r : ℚ)) ≠ 0 := Nat.cast_ne_zero.mpr hrpos.ne'
  have hxh0 : ((x.h : ℚ)) ≠ 0 := Nat.cast_ne_zero.mpr hxh.ne'
  have hxw0 : ((x.w : ℚ)) ≠ 0 := Nat.cast_ne_zero.mpr hxw.ne'
  have hle : x.h ≤ y.h := by
    rw [hyh]
    exact Nat.le_mul_of_pos_left _ hrpos
  have hsch : ((x.h : ℚ)) / (((r * x.h : ℕ)) : ℚ) = 1 / (r : ℚ) := by
    push_cast
    field_simp
    ring
  have hscw : ((x.w : ℚ)) / (((r * x.w : ℕ)) : ℚ) = 1 / (r : ℚ) := by
    push_cast
    field_simp
    ring
  rw [pair_crop_max, if_pos hle]
  simp only [_pair_crop_max]
  rw [if_neg (not_not_intro hle)]
  rw [hyh, hyw, hsch, hscw, sub_self, abs_zero]
  rw [if_neg (by norm_num : ¬((0 : ℚ) > 1 / 100000))]
  by_cases hc : min x.h ⌊(m : ℚ) * (1 / (r : ℚ))⌋₊ ≠ x.h ∨
      min x.w ⌊(m : ℚ) * (1 / (r : ℚ))⌋₊ ≠ x.w
  · rw [if_pos hc]
    rw [floor_div_one_div_nat _ r hrpos, floor_div_one_div_nat _ r hrpos]
    rw [floor_mul_one_div_nat _ r hrpos, floor_mul_one_div_nat _ r hrpos]
    rw [if_pos ⟨rfl, rfl⟩]
    refine ⟨_, _, rfl, rfl, rfl, ?_, ?_⟩
    · exact Nat.mul_div_cancel _ hrpos
    · exact Nat.mul_div_cancel _ hrpos
  · rw [if_neg hc]
    refine ⟨x, y, rfl, ?_, ?_, ?_, ?_⟩
    · rw [hyh, Nat.mul_comm]
    · rw [hyw, Nat.mul_comm]
    · rw [hyh, Nat.mul_div_cancel_left _ hrpos]
    · rw [hyw, Nat.mul_div_cancel_left _ hrpos]

/-- C4 witness: the integer-ratio theorem instantiated at Scenario B
(`r = 4`), where the crops are 32×32 and 128×128 and `128 / 4 = 32`. -/
theorem C4_witness :
    ∃ x' y', pair_crop_max ⟨0, 0, 256, 256⟩ ⟨0, 0, 1024, 1024⟩ 128 = .ok (x', y') ∧
      y'.h = x'.h * 4 ∧ y'.w = x'.w * 4 ∧
      y'.h / 4 = x'.h ∧ y'.w / 4 = x'.w :=
  C4_pair_crop_max_integer_ratio ⟨0, 0, 256, 256⟩ ⟨0, 0, 1024, 1024⟩ 128 4
    (by norm_num) (by norm_num) (by norm_num) (by norm_num) (by norm_num)

/-! ## C2 -/

/-- C2, counterexample: for `x = 4×4`, `y = 8×8`, `maxSize = 4`,
`stepRate = 1/2`, `split_image` on the low-res image alone returns the
single original image (both dimensions fit in `maxSize = 4`), while
`pair_split_image` tiles the low-res side with the scaled-down window
`int(4 × 4/8) = 2` into 9 tiles — so the low-res tile sequences differ
(9 tiles versus 1). -/
theorem C2_counterexample :
    Except.map (fun p => (p.1 : List Img).length)
        (pair_split_image ⟨0, 0, 4, 4⟩ ⟨0, 0, 8, 8⟩ 4 (1 / 2)) = .ok 9 ∧
    Except.map List.length (split_image ⟨0, 0, 4, 4⟩ 4 (1 / 2)) = .ok 1 := by
  constructor
  · norm_num [pair_split_image, _pair_split_image, pyTrunc, pyRange, align_ok,
      List.range', crop, Except.map]
  · norm_num [split_image, Except.map]

/-- C2 (amended): whenever `pair_split_image` succeeds on a pair with the
low-res side first, its low-res tile sequence is exactly what `split_image`
produces on the low-res image **with the scaled-down budget
`int(maxSize × x.h/y.h)`** (not with `maxSize` itself): same window, same
strides, same row-major order, same count. -/
theorem C2_pair_split_low_res (x y : Img) (m : Nat) (s : ℚ)
    (hle : x.h ≤ y.h) (xs ys : List Img)
    (hok : pair_split_image x y m s = .ok (xs, ys)) :
    split_image x ⌊(m : ℚ) * ((x.h : ℚ) / (y.h : ℚ))⌋₊ s = .ok xs := by
  rw [pair_split_image, if_pos hle] at hok
  simp only [_pair_split_image] at hok
  rw [if_neg (not_not_intro hle)] at hok
  rw [split_image]
  split at hok
  · simp at hok
  · split at hok
    · rename_i hcrop
      rw [if_pos (by omega)]
      split at hok
      · rename_i h1
        rw [if_pos h1]
        simp at hok ⊢
      · split at hok
        · rename_i h1 h2
          rw [if_neg h1, if_pos h2]
          rw [Except.ok.injEq, Prod.mk.injEq] at hok
          rw [hok.1]
        · split at hok
          · rename_i h1 h2 h3
            rw [if_neg h1, if_neg h2, if_pos h3]
            simp at hok ⊢
          · split at hok
            · rename_i h1 h2 h3 h4
              rw [if_neg h1, if_neg h2, if_neg h3, if_pos h4]
              rw [Except.ok.injEq, Prod.mk.injEq] at hok
              rw [hok.1]
            · rename_i h1 h2 h3 h4
              rw [if_neg h1, if_neg h2, if_neg h3, if_neg h4]
              split at hok
              · rw [Except.ok.injEq, Prod.mk.injEq] at hok
                rw [hok.1]
              · simp at hok
    · rename_i hcrop
      rw [if_neg (by omega)]
      rw [Except.ok.injEq, Prod.mk.injEq] at hok
      rw [hok.1]

/-- C2 witness: the amended theorem instantiated at `x = 4×4`, `y = 8×8`,
`maxSize = 6`, `stepRate = 1/2`: the pair operation succeeds with four
low-res tiles of 3×3, and `split_image` with the scaled budget
`int(6 × 4/8) = 3` produces exactly those four tiles. -/
theorem C2_witness :
    split_image ⟨0, 0, 4, 4⟩ ⌊(6 : ℚ) * ((4 : ℚ) / (8 : ℚ))⌋₊ (1 / 2)
      = .ok [⟨0, 0, 3, 3⟩, ⟨0, 1, 3, 3⟩, ⟨1, 0, 3, 3⟩, ⟨1, 1, 3, 3⟩] :=
  C2_pair_split_low_res ⟨0, 0, 4, 4⟩ ⟨0, 0, 8, 8⟩ 6 (1 / 2) (by norm_num)
    [⟨0, 0, 3, 3⟩, ⟨0, 1, 3, 3⟩, ⟨1, 0, 3, 3⟩, ⟨1, 1, 3, 3⟩]
    [⟨0, 0, 6, 6⟩, ⟨0, 2, 6, 6⟩, ⟨2, 0, 6, 6⟩, ⟨2, 2, 6, 6⟩]
    (by norm_num [pair_split_image, _pair_split_image, pyTrunc, pyRange,
      align_ok, List.range', crop])

/-! ## C6 -/

/-- Length of `pyRange (n + 1) step` for a positive step:
`⌈(n+1)/step⌉ = n / step + 1`. -/
theorem pyRange_length (n step : Nat) (hs : 0 < step) :
    (pyRange (n + 1) step).length = n / step + 1 := by
  rw [pyRange, List.length_range']
  have h1 : n + 1 + step - 1 = n + step := by omega
  rw [h1, Nat.add_div_right _ hs]

/-- Entry `d` of `pyRange (n + 1) step` is `step * d`. -/
theorem pyRange_getElem? (n step d : Nat) (hs : 0 < step)
    (hd : d < n / step + 1) :
    (pyRange (n + 1) step)[d]? = some (step * d) := by
  have hd' : d < (pyRange (n + 1) step).length := by
    rw [pyRange_length n step hs]
    exact hd
  rw [List.getElem?_eq_getElem hd']
  simp [pyRange, List.getElem_range']

/-- Length of the row-major tile grid produced by the split loops. -/
theorem grid_tiles_length (x : Img) (a b sh sw ch cw : Nat)
    (hsh : 0 < sh) (hsw : 0 < sw) :
    ((pyRange (a + 1) sh).flatMap fun i =>
      (pyRange (b + 1) sw).map fun j => crop x i j ch cw).length
      = (a / sh + 1) * (b / sw + 1) := by
  rw [grid_length, pyRange_length _ _ hsh, pyRange_length _ _ hsw]

/-- Entry `k` of the row-major tile grid: the crop at row offset
`sh * (k / nw)` and column offset `sw * (k % nw)`. -/
theorem grid_tiles_getElem (x : Img) (a b sh sw ch cw : Nat) (hsh : 0 < sh)
    (hsw : 0 < sw) (k : Nat)
    (hk : k < ((pyRange (a + 1) sh).flatMap fun i =>
      (pyRange (b + 1) sw).map fun j => crop x i j ch cw).length) :
    ((pyRange (a + 1) sh).flatMap fun i =>
      (pyRange (b + 1) sw).map fun j => crop x i j ch cw)[k]
      = crop x (sh * (k / (b / sw + 1))) (sw * (k % (b / sw + 1))) ch cw := by
  have hlen := grid_tiles_length x a b sh sw ch cw hsh hsw
  have hk' : k < (a / sh + 1) * (b / sw + 1) := by
    rw [← hlen]
    exact hk
  have hdivlt : k / (b / sw + 1) < a / sh + 1 :=
    (Nat.div_lt_iff_lt_mul (Nat.succ_pos _)).mpr hk'
  have hmodlt : k % (b / sw + 1) < b / sw + 1 := Nat.mod_lt _ (Nat.succ_pos _)
  have h1 := grid_getElem? (pyRange (a + 1) sh) (pyRange (b + 1) sw)
    (fun i j => crop x i j ch cw) k
  rw [pyRange_length _ _ hsw] at h1
  rw [pyRange_getElem? _ _ _ hsh hdivlt, pyRange_getElem? _ _ _ hsw hmodlt] at h1
  rw [List.getElem?_eq_getElem hk] at h1
  simp only [Option.bind_some, Option.map_some'] at h1
  exact Option.some.inj h1

/-- C6: `split_image` returns the single original image when both
dimensions fit in `maxSize`; otherwise — whenever the computed strides are
positive — it produces `(⌊(h-ch)/sh⌋+1) × (⌊(w-cw)/sw⌋+1)` tiles of extent
`ch × cw = min(h,maxSize) × min(w,maxSize)`, in row-major order, tile `k`
anchored at `((k / nw)·sh, (k % nw)·sw)`, and no anchor ever passes
`dimension − windowSize`. -/
theorem C6_split_image_tiles (x : Img) (m : Nat) (rate : ℚ)
    (ht : x.top = 0) (hl : x.left = 0) :
    (x.h ≤ m ∧ x.w ≤ m → split_image x m rate = .ok [x]) ∧
    (∀ ch cw sh sw nh nw : Nat, ch = min x.h m → cw = min x.w m →
      sh = (pyTrunc ((ch : ℚ) * rate)).toNat →
      sw = (pyTrunc ((cw : ℚ) * rate)).toNat →
      nh = (x.h - ch) / sh + 1 → nw = (x.w - cw) / sw + 1 →
      (m < x.h ∨ m < x.w) →
      1 ≤ pyTrunc ((ch : ℚ) * rate) → 1 ≤ pyTrunc ((cw : ℚ) * rate) →
      ∃ tiles, split_image x m rate = .ok tiles ∧
        tiles.length = nh * nw ∧
        ∀ k, ∀ hk : k < tiles.length,
          tiles[k] = Img.mk (k / nw * sh) (k % nw * sw) ch cw ∧
          k / nw * sh ≤ x.h - ch ∧ k % nw * sw ≤ x.w - cw) := by
  constructor
  · intro hfit
    rw [split_image, if_neg (by omega)]
  · intro ch cw sh sw nh nw hch hcw hsh hsw hnh hnw hdim hs1 hs2
    subst hch
    subst hcw
    subst hsh
    subst hsw
    subst hnh
    subst hnw
    have hshpos : 0 < (pyTrunc (((min x.h m : ℕ) : ℚ) * rate)).toNat := by omega
    have hswpos : 0 < (pyTrunc (((min x.w m : ℕ) : ℚ) * rate)).toNat := by omega
    simp only [split_image]
    rw [if_pos hdim, if_neg (by omega), if_neg (by omega), if_neg (by omega),
      if_neg (by omega)]
    refine ⟨_, rfl, ?_, ?_⟩
    · exact grid_tiles_length x _ _ _ _ _ _ hshpos hswpos
    · intro k hk
      have hlen := grid_tiles_length x (x.h - min x.h m) (x.w - min x.w m)
        _ _ (min x.h m) (min x.w m) hshpos hswpos
      have hk' : k < ((x.h - min x.h m) /
            (pyTrunc (((min x.h m : ℕ) : ℚ) * rate)).toNat + 1) *
          ((x.w - min x.w m) /
            (pyTrunc (((min x.w m : ℕ) : ℚ) * rate)).toNat + 1) := by
        rw [← hlen]
        exact hk
      have hdivlt : k / ((x.w - min x.w m) /
            (pyTrunc (((min x.w m : ℕ) : ℚ) * rate)).toNat + 1) <
          (x.h - min x.h m) /
            (pyTrunc (((min x.h m : ℕ) : ℚ) * rate)).toNat + 1 :=
        (Nat.div_lt_iff_lt_mul (Nat.succ_pos _)).mpr hk'
      have hmodlt : k % ((x.w - min x.w m) /
            (pyTrunc (((min x.w m : ℕ) : ℚ) * rate)).toNat + 1) <
          (x.w - min x.w m) /
            (pyTrunc (((min x.w m : ℕ) : ℚ) * rate)).toNat + 1 :=
        Nat.mod_lt _ (Nat.succ_pos _)
      refine ⟨?_, ?_, ?_⟩
      · rw [grid_tiles_getElem x _ _ _ _ _ _ hshpos hswpos k hk]
        rw [crop, ht, hl]
        simp [Nat.mul_comm]
      · calc k / ((x.w - min x.w m) /
              (pyTrunc (((min x.w m : ℕ) : ℚ) * rate)).toNat + 1) *
              (pyTrunc (((min x.h m : ℕ) : ℚ) * rate)).toNat
            ≤ (x.h - min x.h m) /
                (pyTrunc (((min x.h m : ℕ) : ℚ) * rate)).toNat *
              (pyTrunc (((min x.h m : ℕ) : ℚ) * rate)).toNat :=
              Nat.mul_le_mul_right _ (Nat.lt_succ_iff.mp hdivlt)
          _ ≤ x.h - min x.h m := Nat.div_mul_le_self _ _
      · calc k % ((x.w - min x.w m) /
              (pyTrunc (((min x.w m : ℕ) : ℚ) * rate)).toNat + 1) *
              (pyTrunc (((min x.w m : ℕ) : ℚ) * rate)).toNat
            ≤ (x.w - min x.w m) /
                (pyTrunc (((min x.w m : ℕ) : ℚ) * rate)).toNat *
              (pyTrunc (((min x.w m : ℕ) : ℚ) * rate)).toNat :=
              Nat.mul_le_mul_right _ (Nat.lt_succ_iff.mp hmodlt)
          _ ≤ x.w - min x.w m := Nat.div_mul_le_self _ _

/-- C6 witness: Scenario C — a 300×300 image with `maxSize = 100` and
`stepRate = 1/2` yields 5×5 = 25 tiles of 100×100; tile 7 (row-major) is
anchored at row 50, column 100. -/
theorem C6_witness :
    Except.map List.length (split_image (Img.mk 0 0 300 300) 100 (1 / 2))
        = .ok 25 ∧
    Except.map (fun l => l[7]?) (split_image (Img.mk 0 0 300 300) 100 (1 / 2))
        = .ok (some (Img.mk 50 100 100 100)) := by
  obtain ⟨tiles, hok, hlen, helem⟩ :=
    (C6_split_image_tiles (Img.mk 0 0 300 300) 100 (1 / 2) rfl rfl).2
      100 100 50 50 5 5 (by norm_num) (by norm_num)
      (by norm_num [pyTrunc]; rfl) (by norm_num [pyTrunc]; rfl) (by norm_num)
      (by norm_num) (by norm_num) (by norm_num [pyTrunc]) (by norm_num [pyTrunc])
  have h7 : (7 : Nat) < tiles.length := by
    rw [hlen]
    norm_num
  obtain ⟨he, h2, h3⟩ := helem 7 h7
  rw [hok]
  constructor
  · simp only [Except.map]
    rw [hlen]
  · simp only [Except.map]
    rw [List.getElem?_eq_getElem h7, he]

/-! ## C5 -/

/-- Cross-multiplied form of `align_exact`: a value passing the round-trip
check for scale `a/b` scales up to an exact integer solution of
`hi * a = v * b` in the integer domain. -/
theorem align_cross {a b : ℕ} (ha : 0 < a) (hb : 0 < b) {v : ℕ}
    (h : align_ok ((a : ℚ) / (b : ℚ)) v = true) :
    (⌊(v : ℚ) / ((a : ℚ) / (b : ℚ))⌋₊ : ℕ) * a = v * b := by
  have hb0 : ((b : ℚ)) ≠ 0 := Nat.cast_ne_zero.mpr hb.ne'
  have ha0 : ((a : ℚ)) ≠ 0 := Nat.cast_ne_zero.mpr ha.ne'
  have hpos : (0 : ℚ) < (a : ℚ) / (b : ℚ) :=
    div_pos (by exact_mod_cast ha) (by exact_mod_cast hb)
  have he := align_exact hpos h
  rw [← mul_div_assoc, div_eq_iff hb0] at he
  exact_mod_cast he

/-- C5: whenever `pair_split_image` accepts a pair of origin-anchored images
with positive dimensions and the low-res side first, it returns two
sequences of the same length, and every positionally matched pair of tiles
satisfies the exact integer cross-multiplication relations
`hi.top * x.h = lo.top * y.h`, `hi.left * x.w = lo.left * y.w`,
`hi.h * x.h = lo.h * y.h`, `hi.w * x.w = lo.w * y.w` — i.e. the high-res
region is the low-res region scaled by the per-axis ratio exactly, with
every derived coordinate an exact integer multiple (the `assert` guarding
the loop fails instead whenever this would not hold). -/
theorem C5_pair_split_alignment (x y : Img) (m : Nat) (s : ℚ)
    (hxt : x.top = 0) (hxl : x.left = 0) (hyt : y.top = 0) (hyl : y.left = 0)
    (hxh : 0 < x.h) (hxw : 0 < x.w) (hyh : 0 < y.h) (hyw : 0 < y.w)
    (hle : x.h ≤ y.h) (xs ys : List Img)
    (hok : pair_split_image x y m s = .ok (xs, ys)) :
    xs.length = ys.length ∧
    ∀ p ∈ xs.zip ys,
      p.2.top * x.h = p.1.top * y.h ∧ p.2.left * x.w = p.1.left * y.w ∧
      p.2.h * x.h = p.1.h * y.h ∧ p.2.w * x.w = p.1.w * y.w := by
  rw [pair_split_image, if_pos hle] at hok
  simp only [_pair_split_image] at hok
  rw [if_neg (not_not_intro hle)] at hok
  split at hok
  · simp at hok
  · split at hok
    · split at hok
      · simp at hok
      · split at hok
        · rw [Except.ok.injEq, Prod.mk.injEq] at hok
          obtain ⟨h1, h2⟩ := hok
          subst h1
          subst h2
          refine ⟨rfl, ?_⟩
          intro p hp
          simp at hp
        · split at hok
          · simp at hok
          · split at hok
            · rw [Except.ok.injEq, Prod.mk.injEq] at hok
              obtain ⟨h1, h2⟩ := hok
              subst h1
              subst h2
              refine ⟨rfl, ?_⟩
              intro p hp
              simp at hp
            · split at hok
              · rename_i halign
                rw [Except.ok.injEq, Prod.mk.injEq] at hok
                obtain ⟨h1, h2⟩ := hok
                subst h1
                subst h2
                simp only [List.all_eq_true, Bool.and_eq_true] at halign
                constructor
                · rw [grid_length, grid_length]
                · intro p hp
                  rw [grid_zip, List.mem_flatMap] at hp
                  obtain ⟨i, hi, hp⟩ := hp
                  rw [List.mem_map] at hp
                  obtain ⟨j, hj, hp⟩ := hp
                  obtain ⟨⟨⟨hai, haj⟩, hach⟩, hacw⟩ := halign i hi j hj
                  subst hp
                  refine ⟨?_, ?_, ?_, ?_⟩
                  · simp only [crop, hxt, hyt, Nat.zero_add]
                    exact align_cross hxh hyh hai
                  · simp only [crop, hxl, hyl, Nat.zero_add]
                    exact align_cross hxw hyw haj
                  · simp only [crop]
                    exact align_cross hxh hyh hach
                  · simp only [crop]
                    exact align_cross hxw hyw hacw
              · simp at hok
    · rw [Except.ok.injEq, Prod.mk.injEq] at hok
      obtain ⟨h1, h2⟩ := hok
      subst h1
      subst h2
      refine ⟨rfl, ?_⟩
      intro p hp
      simp only [List.zip_cons_cons, List.zip_nil_right, List.mem_singleton] at hp
      subst hp
      simp [hxt, hxl, hyt, hyl, Nat.mul_comm]

/-- C5 witness: the alignment theorem instantiated at `x = 4×4`, `y = 8×8`,
`maxSize = 6`, `stepRate = 1/2`, which yields four positionally matched
tile pairs, e.g. low-res `(1,1,3,3)` against high-res `(2,2,6,6)`. -/
theorem C5_witness :
    ([⟨0, 0, 3, 3⟩, ⟨0, 1, 3, 3⟩, ⟨1, 0, 3, 3⟩, ⟨1, 1, 3, 3⟩] : List Img).length
        = ([⟨0, 0, 6, 6⟩, ⟨0, 2, 6, 6⟩, ⟨2, 0, 6, 6⟩, ⟨2, 2, 6, 6⟩] : List Img).length ∧
    ∀ p ∈ ([⟨0, 0, 3, 3⟩, ⟨0, 1, 3, 3⟩, ⟨1, 0, 3, 3⟩, ⟨1, 1, 3, 3⟩] : List Img).zip
        ([⟨0, 0, 6, 6⟩, ⟨0, 2, 6, 6⟩, ⟨2, 0, 6, 6⟩, ⟨2, 2, 6, 6⟩] : List Img),
      p.2.top * 4 = p.1.top * 8 ∧ p.2.left * 4 = p.1.left * 8 ∧
      p.2.h * 4 = p.1.h * 8 ∧ p.2.w * 4 = p.1.w * 8 :=
  C5_pair_split_alignment ⟨0, 0, 4, 4⟩ ⟨0, 0, 8, 8⟩ 6 (1 / 2) rfl rfl rfl rfl
    (by norm_num) (by norm_num) (by norm_num) (by norm_num) (by norm_num)
    [⟨0, 0, 3, 3⟩, ⟨0, 1, 3, 3⟩, ⟨1, 0, 3, 3⟩, ⟨1, 1, 3, 3⟩]
    [⟨0, 0, 6, 6⟩, ⟨0, 2, 6, 6⟩, ⟨2, 0, 6, 6⟩, ⟨2, 2, 6, 6⟩]
    (by norm_num [pair_split_image, _pair_split_image, pyTrunc, pyRange,
      align_ok, List.range', crop])

/-! ## C7 -/

/-- C7: when both collections are supplied and some target key has no entry
in the input collection, the whole run fails with the missing-pair signal
naming an offending target key — `validate_pairs` raises before
`convert_loop` is ever entered, so no tiling happens and no write is
submitted (the run result is the bare error). -/
theorem C7_missing_pair (decode : String → Img × ImgMeta)
    (y_data x_data : List (String × SrcEntry)) (args : Args)
    (k : String) (e : SrcEntry) (hmem : (k, e) ∈ y_data)
    (hnone : x_data.lookup k = none) :
    ∃ k', x_data.lookup k' = none ∧ k' ∈ y_data.map Prod.fst ∧
      main_model decode y_data x_data args = .error (.missingPair k') := by
  have hval : ∃ k', x_data.lookup k' = none ∧ k' ∈ y_data.map Prod.fst ∧
      validate_pairs x_data y_data = .error (.missingPair k') := by
    induction y_data with
    | nil => simp at hmem
    | cons hd tl ih =>
      obtain ⟨k0, v0⟩ := hd
      cases hx : x_data.lookup k0 with
      | none =>
        refine ⟨k0, hx, by simp, ?_⟩
        simp [validate_pairs, hx]
      | some xv =>
        rcases List.mem_cons.mp hmem with heq | htl
        · rw [Prod.mk.injEq] at heq
          rw [← heq.1] at hx
          rw [hnone] at hx
          simp at hx
        · obtain ⟨k', h1, h2, h3⟩ := ih htl
          refine ⟨k', h1, by simp [h2], ?_⟩
          simp [validate_pairs, hx, h3, Except.map]
  obtain ⟨k', h1, h2, h3⟩ := hval
  refine ⟨k', h1, h2, ?_⟩
  rw [main_model, h3]
  rfl

/-- C7 witness: target keys `a`, `b` with the input collection holding only
`a`: the run aborts with the missing-pair error naming `b`. -/
theorem C7_witness :
    ∃ k', ([("a", SrcEntry.mk "xa.png" [])] : List (String × SrcEntry)).lookup k'
        = none ∧
      k' ∈ ([("a", SrcEntry.mk "ya.png" []), ("b", SrcEntry.mk "yb.png" [])]
        : List (String × SrcEntry)).map Prod.fst ∧
      main_model (fun _ => (⟨0, 0, 8, 8⟩, ⟨"f.png", false⟩))
          [("a", SrcEntry.mk "ya.png" []), ("b", SrcEntry.mk "yb.png" [])]
          [("a", SrcEntry.mk "xa.png" [])]
          ⟨0, false, 1 / 2, 0, 0, false, false, false, false⟩
        = .error (.missingPair k') :=
  C7_missing_pair (fun _ => (⟨0, 0, 8, 8⟩, ⟨"f.png", false⟩))
    [("a", SrcEntry.mk "ya.png" []), ("b", SrcEntry.mk "yb.png" [])]
    [("a", SrcEntry.mk "xa.png" [])]
    ⟨0, false, 1 / 2, 0, 0, false, false, false, false⟩
    "b" (SrcEntry.mk "yb.png" []) (by simp) (by simp [List.lookup])

/-! ## C8 -/

/-- C8: a pair whose target side carries an alpha channel is skipped before
any processing — the run result is exactly the result of the remaining
stream with the skip diagnostic prepended and no write added; likewise a
pair whose input side carries alpha (once the positional key check passes).
Processing continues with the rest of the stream, so the run is not
aborted. -/
theorem C8_alpha_skip (args : Args) (xo : Option (Img × ImgMeta))
    (x_im : Img) (x_meta : ImgMeta) (y_im : Img) (y_meta : ImgMeta)
    (rest : List (Option (Img × ImgMeta) × (Img × ImgMeta))) :
    (y_meta.alpha = true →
      convert_loop args ((xo, (y_im, y_meta)) :: rest)
        = (convert_loop args rest).map fun r =>
            (r.1, skip_message y_meta.filename :: r.2)) ∧
    (y_meta.alpha = false → x_meta.alpha = true →
      filename2key x_meta.filename = filename2key y_meta.filename →
      convert_loop args ((some (x_im, x_meta), (y_im, y_meta)) :: rest)
        = (convert_loop args rest).map fun r =>
            (r.1, skip_message x_meta.filename :: r.2)) := by
  constructor
  · intro hy
    simp [convert_loop, hy]
  · intro hy hx hkey
    simp [convert_loop, hy, hx, hkey]

/-- C8 witness: with a transparent target image the pair contributes no
write and one diagnostic, and an empty remaining stream still completes. -/
theorem C8_witness :
    convert_loop ⟨0, false, 1 / 2, 0, 0, false, false, false, false⟩
        [(some (⟨0, 0, 2, 2⟩, ⟨"p.png", false⟩), (⟨0, 0, 2, 2⟩, ⟨"p.png", true⟩))]
      = (convert_loop ⟨0, false, 1 / 2, 0, 0, false, false, false, false⟩ []).map
          (fun r => (r.1, skip_message "p.png" :: r.2)) :=
  (C8_alpha_skip ⟨0, false, 1 / 2, 0, 0, false, false, false, false⟩
    (some (⟨0, 0, 2, 2⟩, ⟨"p.png", false⟩)) ⟨0, 0, 2, 2⟩ ⟨"p.png", false⟩
    ⟨0, 0, 2, 2⟩ ⟨"p.png", true⟩ []).1 rfl

/-! ## C9 -/

/-- C9: the delimited-file indexer never succeeds on a file with a row —
its loop body evaluates `list(row.values)` on a Python list, which has no
`values` attribute, so the very first row raises `AttributeError` instead
of producing the claimed key → path mapping. -/
theorem C9_csv_loader_bug :
    load_files_from_csv [["img0001.png", "100"]] = .error .attributeError :=
  rfl

/-! ## C10 -/

/-- C10: with a dimension exceeding `maxSize` and a nonnegative `stepRate`
whose computed stride truncates to zero, `split_image` raises the
`range`-step error instead of returning tiles; the low-res tiling loop of
`_pair_split_image` (reached through `pair_split_image` once the scale
check passes and a crop is needed) fails the same way. -/
theorem C10_zero_stride (x y : Img) (m : Nat) (rate : ℚ) :
    ((m < x.h ∨ m < x.w) → 0 ≤ rate →
      (pyTrunc (((min x.h m : ℕ) : ℚ) * rate) = 0 ∨
       pyTrunc (((min x.w m : ℕ) : ℚ) * rate) = 0) →
      split_image x m rate = .error .stepZero) ∧
    (x.h ≤ y.h →
      ¬(|(x.w : ℚ) / (y.w : ℚ) - (x.h : ℚ) / (y.h : ℚ)| > 1 / 100000) →
      (x.h ≠ min x.h ⌊(m : ℚ) * ((x.h : ℚ) / (y.h : ℚ))⌋₊ ∨
       x.w ≠ min x.w ⌊(m : ℚ) * ((x.h : ℚ) / (y.h : ℚ))⌋₊) →
      0 ≤ rate →
      (pyTrunc (((min x.h ⌊(m : ℚ) * ((x.h : ℚ) / (y.h : ℚ))⌋₊ : ℕ) : ℚ) * rate) = 0 ∨
       pyTrunc (((min x.w ⌊(m : ℚ) * ((x.h : ℚ) / (y.h : ℚ))⌋₊ : ℕ) : ℚ) * rate) = 0) →
      pair_split_image x y m rate = .error .stepZero) := by
  constructor
  · intro hdim hrate hz
    simp only [split_image]
    rw [if_pos hdim]
    by_cases hh : pyTrunc (((min x.h m : ℕ) : ℚ) * rate) = 0
    · rw [if_pos hh]
    · have hw : pyTrunc (((min x.w m : ℕ) : ℚ) * rate) = 0 := hz.resolve_left hh
      have hnn : 0 ≤ pyTrunc (((min x.h m : ℕ) : ℚ) * rate) := by
        rw [pyTrunc, if_pos (mul_nonneg (Nat.cast_nonneg _) hrate)]
        exact Int.floor_nonneg.mpr (mul_nonneg (Nat.cast_nonneg _) hrate)
      rw [if_neg hh, if_neg (by omega), if_pos hw]
  · intro hle hsc hcrop hrate hz
    rw [pair_split_image, if_pos hle]
    simp only [_pair_split_image]
    rw [if_neg hsc, if_neg (not_not_intro hle), if_pos hcrop]
    by_cases hh : pyTrunc (((min x.h ⌊(m : ℚ) * ((x.h : ℚ) / (y.h : ℚ))⌋₊ : ℕ) : ℚ)
        * rate) = 0
    · rw [if_pos hh]
    · have hw : pyTrunc (((min x.w ⌊(m : ℚ) * ((x.h : ℚ) / (y.h : ℚ))⌋₊ : ℕ) : ℚ)
          * rate) = 0 := hz.resolve_left hh
      have hnn : 0 ≤ pyTrunc (((min x.h ⌊(m : ℚ) * ((x.h : ℚ) / (y.h : ℚ))⌋₊ : ℕ) : ℚ)
          * rate) := by
        rw [pyTrunc, if_pos (mul_nonneg (Nat.cast_nonneg _) hrate)]
        exact Int.floor_nonneg.mpr (mul_nonneg (Nat.cast_nonneg _) hrate)
      rw [if_neg hh, if_neg (by omega), if_pos hw]

/-- C10 witness: `stepRate = 0` on a 300×300 image with `maxSize = 100`
makes `split_image` fail, and a 4×4 / 16×16 pair with `maxSize = 4` and
`stepRate = 1/2` makes the pair loop fail (its scaled window is 1 pixel, so
the stride `int(1 × 0.5)` is 0). -/
theorem C10_witness :
    split_image ⟨0, 0, 300, 300⟩ 100 0 = .error .stepZero ∧
    pair_split_image ⟨0, 0, 4, 4⟩ ⟨0, 0, 16, 16⟩ 4 (1 / 2)
      = .error .stepZero := by
  constructor
  · exact (C10_zero_stride ⟨0, 0, 300, 300⟩ ⟨0, 0, 1, 1⟩ 100 0).1
      (by norm_num) le_rfl (by norm_num [pyTrunc])
  · exact (C10_zero_stride ⟨0, 0, 4, 4⟩ ⟨0, 0, 16, 16⟩ 4 (1 / 2)).2
      (by norm_num) (by norm_num) (by norm_num) (by norm_num)
      (by norm_num [pyTrunc])

end Nunif
